import Mathlib

/-!
Verification development for the Chat-me client
(src/src/pages/Chat.tsx, the second component version, lines 678-1774,
which is the one all behaviour below is read from).

The client talks to a relational store; each operation is embedded here as a
pure function on the relevant table rows or component state.  Timestamps are
milliseconds since the epoch, modelled as `Int`.
-/

namespace ChatMe

/-- One reaction entry as stored in the `reactions` JSON list of a messages
row (Chat.tsx line 708: `reactions?: ...emoji: string; user_id: string...[]`). -/
structure Reaction where
  emoji : String
  user_id : String
deriving DecidableEq

/-- A row of the `messages` table as the client reads and writes it
(Chat.tsx lines 700-714; the migration adds `seen_by jsonb default []`).
`created_at` is a millisecond timestamp. -/
structure Message where
  id : String
  content : Option String
  image_url : Option String
  message_type : String
  created_at : Int
  sender_id : String
  conversation_id : String
  reactions : List Reaction
  seen_by : List String
deriving DecidableEq

/-- The predicate used in `addReaction` (Chat.tsx line 1039):
`r.user_id === user.id && r.emoji === emoji`. -/
def reactionMatches (uid emoji : String) (r : Reaction) : Bool :=
  r.user_id == uid && r.emoji == emoji

/-- The `newReactions` computation inside `addReaction` (Chat.tsx 1037-1049).
`findIndex` followed by `filter((_, i) => i !== existingReactionIndex)`
removes exactly the first entry satisfying the predicate, i.e. `List.eraseP`;
`existingReactionIndex > -1` holds exactly when some entry matches, i.e.
`List.any`.  When no entry matches, the new entry is appended at the end. -/
def addReaction (uid emoji : String) (currentReactions : List Reaction) :
    List Reaction :=
  if currentReactions.any (reactionMatches uid emoji) then
    currentReactions.eraseP (reactionMatches uid emoji)
  else
    currentReactions ++ [{ emoji := emoji, user_id := uid }]

lemma reactionMatches_true_iff (uid emoji : String) (r : Reaction) :
    reactionMatches uid emoji r = true ↔ r = { emoji := emoji, user_id := uid } := by
  cases r
  simp [reactionMatches, Reaction.mk.injEq, and_comm]

lemma reactionMatches_self (uid emoji : String) :
    reactionMatches uid emoji { emoji := emoji, user_id := uid } = true := by
  simp [reactionMatches]

/-- `addReaction` keeps at most one matching entry per (user, emoji) pair. -/
lemma addReaction_countP_le_one (uid emoji : String) (l : List Reaction)
    (h : l.countP (reactionMatches uid emoji) ≤ 1) :
    (addReaction uid emoji l).countP (reactionMatches uid emoji) ≤ 1 := by
  by_cases hany : l.any (reactionMatches uid emoji)
  · have := List.length_eraseP_le l (p := reactionMatches uid emoji)
    simp only [addReaction, hany, if_pos]
    calc (l.eraseP (reactionMatches uid emoji)).countP (reactionMatches uid emoji)
        ≤ l.countP (reactionMatches uid emoji) :=
          List.Sublist.countP_le _ (List.eraseP_sublist l)
      _ ≤ 1 := h
  · simp only [addReaction, hany, if_neg, Bool.false_eq_true, not_false_iff]
    rw [List.countP_append]
    have h0 : l.countP (reactionMatches uid emoji) = 0 := by
      rw [List.countP_eq_zero]
      intro a ha
      exact fun hpa => hany (List.any_eq_true.2 ⟨a, ha, hpa⟩)
    simp [h0, reactionMatches_self, List.countP_cons]

end ChatMe

namespace ChatMe

/-- C1: toggling a reaction is an involution.  Applying `addReaction` for the
same (user, emoji) pair twice returns the reaction state — the multiset of
(emoji, user) entries, i.e. the spec's mapping from emoji to the set of users
who applied it — to exactly what it was before; the first application appends
the entry when it is absent and erases the matching entry when present, and
the second application undoes that change (literal list equality in the
absent-then-present direction).  The hypothesis that the pair occurs at most
once holds for every reaction list the program builds, since `addReaction`
preserves it from the empty list (`addReaction_countP_le_one`). -/
theorem addReaction_toggle_involution (uid emoji : String) (l : List Reaction)
    (hdup : l.countP (reactionMatches uid emoji) ≤ 1) :
    (addReaction uid emoji (addReaction uid emoji l)).Perm l
    ∧ ((∀ r ∈ l, ¬ reactionMatches uid emoji r) →
        addReaction uid emoji l = l ++ [{ emoji := emoji, user_id := uid }]
        ∧ addReaction uid emoji (addReaction uid emoji l) = l)
    ∧ ((∃ r ∈ l, reactionMatches uid emoji r) →
        addReaction uid emoji l = l.eraseP (reactionMatches uid emoji)) := by
  by_cases hany : l.any (reactionMatches uid emoji)
  · obtain ⟨a, ha, hpa⟩ := List.any_eq_true.1 hany
    obtain ⟨b, l₁, l₂, h₁, h₂, h₃, h₄⟩ := List.exists_of_eraseP ha hpa
    have hb : b = { emoji := emoji, user_id := uid } :=
      (reactionMatches_true_iff uid emoji b).1 h₂
    have hfirst : addReaction uid emoji l = l₁ ++ l₂ := by
      simp only [addReaction, hany, if_pos]; exact h₄
    have hl₂ : ∀ r ∈ l₂, ¬ reactionMatches uid emoji r := by
      have hcount : l.countP (reactionMatches uid emoji) =
          1 + l₂.countP (reactionMatches uid emoji) := by
        rw [h₃, List.countP_append, List.countP_cons_of_pos _ _ h₂,
          List.countP_eq_zero.2 h₁]
        omega
      have : l₂.countP (reactionMatches uid emoji) = 0 := by omega
      exact fun r hr hpr => by
        have := List.countP_eq_zero.1 this r hr
        exact this hpr
    have hnone : ∀ r ∈ l₁ ++ l₂, ¬ reactionMatches uid emoji r := by
      intro r hr
      rcases List.mem_append.1 hr with h | h
      · exact h₁ r h
      · exact hl₂ r h
    have hany2 : (l₁ ++ l₂).any (reactionMatches uid emoji) = false := by
      rw [List.any_eq_false]; exact hnone
    have hsecond : addReaction uid emoji (l₁ ++ l₂) =
        (l₁ ++ l₂) ++ [{ emoji := emoji, user_id := uid }] := by
      simp [addReaction, hany2]
    refine ⟨?_, ?_, ?_⟩
    · rw [hfirst, hsecond, h₃, hb, List.append_assoc]
      exact List.Perm.append_left l₁
        ((List.perm_append_singleton _ l₂).symm).symm
    · intro hforall
      exact absurd hpa (hforall a ha)
    · intro _
      simp [addReaction, hany]
  · have hnone : ∀ r ∈ l, ¬ reactionMatches uid emoji r := by
      intro r hr hpr
      exact hany (List.any_eq_true.2 ⟨r, hr, hpr⟩)
    have hfirst : addReaction uid emoji l =
        l ++ [{ emoji := emoji, user_id := uid }] := by
      simp [addReaction, hany]
    have hany2 : (l ++ [({ emoji := emoji, user_id := uid } : Reaction)]).any
        (reactionMatches uid emoji) = true := by
      rw [List.any_eq_true]
      exact ⟨_, List.mem_append_right l (List.mem_singleton_self _),
        reactionMatches_self uid emoji⟩
    have hsecond : addReaction uid emoji
        (l ++ [{ emoji := emoji, user_id := uid }]) = l := by
      simp only [addReaction, hany2, if_pos]
      rw [List.eraseP_append_right _ hnone,
        List.eraseP_cons_of_pos (reactionMatches_self uid emoji),
        List.append_nil]
    refine ⟨?_, ?_, ?_⟩
    · rw [hfirst, hsecond]
    · intro _
      exact ⟨hfirst, by rw [hfirst, hsecond]⟩
    · rintro ⟨r, hr, hpr⟩
      exact absurd hpr (hnone r hr)

/-- Witness for C1 at a concrete one-element reaction list. -/
theorem addReaction_toggle_involution_witness :
    (addReaction "u1" "like" (addReaction "u1" "like"
      [{ emoji := "like", user_id := "u1" }])).Perm
      [{ emoji := "like", user_id := "u1" }] :=
  (addReaction_toggle_involution "u1" "like"
    [{ emoji := "like", user_id := "u1" }] (by decide)).1

/-- The per-row update inside `markMessagesAsSeen` (Chat.tsx 1015-1023): the
row is rewritten to `seen_by := [...currentSeenBy, user.id]` only when
`user.id` is not already in `seen_by`; otherwise no write is issued. -/
def markSeenRow (uid : String) (m : Message) : Message :=
  if uid ∈ m.seen_by then m else { m with seen_by := m.seen_by ++ [uid] }

/-- `markMessagesAsSeen` (Chat.tsx 1001-1027): the query selects the rows of
the selected conversation whose `sender_id` differs from the acting user, and
each selected row receives the `markSeenRow` update. -/
def markMessagesAsSeen (conv uid : String) (msgs : List Message) :
    List Message :=
  msgs.map (fun m =>
    if m.conversation_id == conv && m.sender_id != uid then markSeenRow uid m
    else m)

/-- Executable model of JavaScript `String.prototype.trim` as used by
`saveEditMessage`: leading and trailing whitespace dropped. -/
def jsTrim (s : String) : String :=
  ⟨((s.data.dropWhile Char.isWhitespace).reverse.dropWhile
      Char.isWhitespace).reverse⟩

/-- `saveEditMessage` (Chat.tsx 1133-1151): a blank (all-whitespace) edit is
ignored; otherwise the row with the edited message's id gets
`content := editContent.trim()` and nothing else is written. -/
def saveEditMessage (msgId editContent : String) (msgs : List Message) :
    List Message :=
  if (jsTrim editContent).isEmpty then msgs
  else msgs.map (fun m =>
    if m.id == msgId then { m with content := some (jsTrim editContent) }
    else m)

/-- `confirmDeleteMessage` (Chat.tsx 1154-1170): a hard SQL delete of the row
whose id matches; the surviving rows are untouched. -/
def confirmDeleteMessage (msgId : String) (msgs : List Message) :
    List Message :=
  msgs.filter (fun m => m.id != msgId)

/-- The DELETE change-feed handler (Chat.tsx 1113-1118): the client removes
from its local list the message whose id equals `payload.old.id`. -/
def handleDeleteEvent (deletedId : String) (prevMessages : List Message) :
    List Message :=
  prevMessages.filter (fun m => m.id != deletedId)

/-- The INSERT change-feed handler's list update (Chat.tsx 1081-1085): the
incoming message is appended only when no message with its id is already
present. -/
def handleInsertEvent (m : Message) (prevMessages : List Message) :
    List Message :=
  if prevMessages.any (fun msg => msg.id == m.id) then prevMessages
  else prevMessages ++ [m]

/-- The messages-table writes the client performs: row insertion
(`sendMessage` line 1185, `uploadImage` line 1214, `startVideoCall` line
1301), the seen update, the reactions update (`addReaction` lines 1051-1054,
writing the toggled list to the row), the content update and the delete. -/
inductive DbOp where
  | insert (m : Message)
  | markSeen (conv uid : String)
  | toggleReaction (msgId uid emoji : String)
  | edit (msgId newContent : String)
  | delete (msgId : String)

def applyDbOp (msgs : List Message) : DbOp → List Message
  | .insert m => msgs ++ [m]
  | .markSeen conv uid => markMessagesAsSeen conv uid msgs
  | .toggleReaction msgId uid emoji =>
      msgs.map (fun m =>
        if m.id == msgId
        then { m with reactions := addReaction uid emoji m.reactions } else m)
  | .edit msgId c => saveEditMessage msgId c msgs
  | .delete msgId => confirmDeleteMessage msgId msgs

lemma markSeenRow_id (uid : String) (m : Message) :
    (markSeenRow uid m).id = m.id := by
  unfold markSeenRow; split <;> rfl

lemma markSeenRow_seen_by_mono (uid : String) (m : Message) :
    ∀ v ∈ m.seen_by, v ∈ (markSeenRow uid m).seen_by := by
  intro v hv
  unfold markSeenRow; split
  · exact hv
  · exact List.mem_append_left _ hv

lemma markSeenRow_of_mem (uid : String) (m : Message)
    (h : uid ∈ m.seen_by) : markSeenRow uid m = m := by
  simp [markSeenRow, h]

lemma markSeenRow_mem (uid : String) (m : Message) :
    uid ∈ (markSeenRow uid m).seen_by := by
  unfold markSeenRow; split
  · assumption
  · exact List.mem_append_right _ (List.mem_singleton_self _)

lemma markSeenRow_conversation_id (uid : String) (m : Message) :
    (markSeenRow uid m).conversation_id = m.conversation_id := by
  unfold markSeenRow; split <;> rfl

lemma markSeenRow_sender_id (uid : String) (m : Message) :
    (markSeenRow uid m).sender_id = m.sender_id := by
  unfold markSeenRow; split <;> rfl

end ChatMe

namespace ChatMe

/-- C2: seen-marking is monotonic.  (1) For every messages-table write of the
client, every row of the result either derives from an input row with the
same id whose whole `seen_by` it retains, or is the freshly inserted row —
so no operation ever removes a user id from a surviving message's `seen_by`.
(2) A mark-seen call leaves a message that already lists the user in
`seen_by` entirely unchanged (no write, no duplicate entry).  (3) Repeating
`markMessagesAsSeen` is a no-op: the second call changes nothing. -/
theorem markSeen_monotonic :
    (∀ (op : DbOp) (msgs : List Message), ∀ m2 ∈ applyDbOp msgs op,
      (∃ m ∈ msgs, m.id = m2.id ∧ ∀ v ∈ m.seen_by, v ∈ m2.seen_by) ∨
      (∃ m, op = DbOp.insert m ∧ m2 = m))
    ∧ (∀ (conv uid : String) (msgs : List Message) (i : Nat) (m : Message),
        msgs[i]? = some m → uid ∈ m.seen_by →
        (markMessagesAsSeen conv uid msgs)[i]? = some m)
    ∧ (∀ (conv uid : String) (msgs : List Message),
        markMessagesAsSeen conv uid (markMessagesAsSeen conv uid msgs) =
          markMessagesAsSeen conv uid msgs) := by
  refine ⟨?_, ?_, ?_⟩
  · intro op msgs m2 hm2
    cases op with
    | insert m =>
        rcases List.mem_append.1 hm2 with h | h
        · exact Or.inl ⟨m2, h, rfl, fun v hv => hv⟩
        · exact Or.inr ⟨m, rfl, List.mem_singleton.1 h⟩
    | markSeen conv uid =>
        simp only [applyDbOp, markMessagesAsSeen] at hm2
        obtain ⟨m, hm, hfm⟩ := List.mem_map.1 hm2
        refine Or.inl ⟨m, hm, ?_, ?_⟩
        · rw [← hfm]; split
          · exact (markSeenRow_id uid m).symm
          · rfl
        · rw [← hfm]; split
          · exact markSeenRow_seen_by_mono uid m
          · exact fun v hv => hv
    | toggleReaction msgId uid emoji =>
        simp only [applyDbOp] at hm2
        obtain ⟨m, hm, hfm⟩ := List.mem_map.1 hm2
        refine Or.inl ⟨m, hm, ?_, ?_⟩
        · rw [← hfm]; split <;> rfl
        · rw [← hfm]; split <;> exact fun v hv => hv
    | edit msgId c =>
        simp only [applyDbOp, saveEditMessage] at hm2
        split at hm2
        · exact Or.inl ⟨m2, hm2, rfl, fun v hv => hv⟩
        · obtain ⟨m, hm, hfm⟩ := List.mem_map.1 hm2
          refine Or.inl ⟨m, hm, ?_, ?_⟩
          · rw [← hfm]; split <;> rfl
          · rw [← hfm]; split <;> exact fun v hv => hv
    | delete msgId =>
        exact Or.inl ⟨m2, List.mem_of_mem_filter hm2, rfl, fun v hv => hv⟩
  · intro conv uid msgs i m h hu
    unfold markMessagesAsSeen
    rw [List.getElem?_map, h, Option.map_some']
    split
    · rw [markSeenRow_of_mem uid m hu]
    · rfl
  · intro conv uid msgs
    unfold markMessagesAsSeen
    rw [List.map_map]
    apply List.map_congr_left
    intro m _
    simp only [Function.comp_apply]
    by_cases hc : (m.conversation_id == conv && m.sender_id != uid) = true
    · rw [if_pos hc]
      have hc2 : ((markSeenRow uid m).conversation_id == conv &&
          (markSeenRow uid m).sender_id != uid) = true := by
        rw [markSeenRow_conversation_id, markSeenRow_sender_id]; exact hc
      rw [if_pos hc2, markSeenRow_of_mem uid _ (markSeenRow_mem uid m)]
    · rw [if_neg hc, if_neg hc]

/-- Witness for C2: marking seen twice equals marking seen once on a concrete
list, and an already-seen message is untouched. -/
theorem markSeen_monotonic_witness :
    (markMessagesAsSeen "c1" "u1"
      [{ id := "m1", content := some "hi", image_url := none,
         message_type := "text", created_at := 0, sender_id := "a",
         conversation_id := "c1", reactions := [],
         seen_by := ["u1"] }])[0]? =
      some { id := "m1", content := some "hi", image_url := none,
             message_type := "text", created_at := 0, sender_id := "a",
             conversation_id := "c1", reactions := [], seen_by := ["u1"] } :=
  markSeen_monotonic.2.1 "c1" "u1" _ 0 _ rfl (by decide)

/-- C3: the seen-marking operation never touches a message sent by the acting
user — every row whose `sender_id` equals the acting user is returned
unchanged (its position included), so `markMessagesAsSeen` can never add the
sender to the sender's own message's `seen_by`. -/
theorem markSeen_skips_sender (conv uid : String) (msgs : List Message)
    (i : Nat) (m : Message) (h : msgs[i]? = some m)
    (hs : m.sender_id = uid) :
    (markMessagesAsSeen conv uid msgs)[i]? = some m := by
  unfold markMessagesAsSeen
  rw [List.getElem?_map, h, Option.map_some']
  have : (m.sender_id != uid) = false := by simp [hs]
  rw [this, Bool.and_false, if_neg (by simp)]

/-- Witness for C3 on a concrete message sent by the acting user. -/
theorem markSeen_skips_sender_witness :
    (markMessagesAsSeen "c1" "u1"
      [{ id := "m2", content := some "mine", image_url := none,
         message_type := "text", created_at := 5, sender_id := "u1",
         conversation_id := "c1", reactions := [], seen_by := [] }])[0]? =
      some { id := "m2", content := some "mine", image_url := none,
             message_type := "text", created_at := 5, sender_id := "u1",
             conversation_id := "c1", reactions := [], seen_by := [] } :=
  markSeen_skips_sender "c1" "u1" _ 0 _ rfl rfl

/-- C4 counterexample: deletion is not a tombstone.  After
`confirmDeleteMessage` on a concrete one-row table, no record with the
deleted message's id exists at all — the row is removed outright rather than
kept with a cleared payload. -/
theorem delete_tombstone_counterexample :
    ¬ ∃ m ∈ confirmDeleteMessage "m1"
        [{ id := "m1", content := some "hi", image_url := none,
           message_type := "text", created_at := 0, sender_id := "a",
           conversation_id := "c1", reactions := [], seen_by := [] }],
      m.id = "m1" := by decide

/-- C4 amended: deleting a message removes its row from the messages table
entirely (every surviving row has a different id and every row with a
different id survives unchanged); correlation of the delete across clients
happens through the DELETE change-feed event, which carries the old row's
id, and each client's delete handler drops exactly the rows with that id
from its local list. -/
theorem delete_removes_record (msgId : String)
    (dbRows clientRows : List Message) :
    (∀ m ∈ confirmDeleteMessage msgId dbRows, m.id ≠ msgId)
    ∧ (∀ m ∈ dbRows, m.id ≠ msgId → m ∈ confirmDeleteMessage msgId dbRows)
    ∧ (∀ m ∈ handleDeleteEvent msgId clientRows, m.id ≠ msgId)
    ∧ (∀ m ∈ clientRows, m.id ≠ msgId → m ∈ handleDeleteEvent msgId clientRows) := by
  refine ⟨?_, ?_, ?_, ?_⟩
  · intro m hm
    simpa using (List.mem_filter.1 hm).2
  · intro m hm hne
    exact List.mem_filter.2 ⟨hm, by simpa using hne⟩
  · intro m hm
    simpa using (List.mem_filter.1 hm).2
  · intro m hm hne
    exact List.mem_filter.2 ⟨hm, by simpa using hne⟩

/-- Witness for the amended C4 on a concrete two-row table. -/
theorem delete_removes_record_witness :
    ({ id := "m2", content := some "keep", image_url := none,
       message_type := "text", created_at := 1, sender_id := "a",
       conversation_id := "c1", reactions := [], seen_by := [] } : Message) ∈
      confirmDeleteMessage "m1"
        [{ id := "m2", content := some "keep", image_url := none,
           message_type := "text", created_at := 1, sender_id := "a",
           conversation_id := "c1", reactions := [], seen_by := [] }] :=
  (delete_removes_record "m1" _ []).2.1 _ (List.mem_singleton_self _)
    (by decide)

/-- C9 counterexample: evaluating `saveEditMessage` on a concrete row shows
the edit writes only `content` — the resulting row is the original with the
content replaced and every other field (the schema of Chat.tsx 700-714 and
the migration, which has no `edited_at` column) untouched, so no separate
`edited_at` is moved to record the edit. -/
theorem edit_no_edited_at_counterexample :
    saveEditMessage "m1" "new text"
      [{ id := "m1", content := some "old", image_url := none,
         message_type := "text", created_at := 42, sender_id := "a",
         conversation_id := "c1", reactions := [], seen_by := [] }] =
      [{ id := "m1", content := some "new text", image_url := none,
         message_type := "text", created_at := 42, sender_id := "a",
         conversation_id := "c1", reactions := [], seen_by := [] }] := by
  decide

/-- C9 amended: editing a message preserves `created_at` (and the id, the
sender, the conversation, the type, the image reference, the reactions and
the seen set); only `content` may change, to the trimmed edit text.  The
messages schema has no `edited_at` field, so nothing else records the edit. -/
theorem edit_preserves_created_at (msgId c : String) (msgs : List Message)
    (i : Nat) (m : Message) (h : msgs[i]? = some m) :
    ∃ m2, (saveEditMessage msgId c msgs)[i]? = some m2
      ∧ m2.created_at = m.created_at
      ∧ m2.id = m.id
      ∧ m2.sender_id = m.sender_id
      ∧ m2.conversation_id = m.conversation_id
      ∧ m2.message_type = m.message_type
      ∧ m2.image_url = m.image_url
      ∧ m2.reactions = m.reactions
      ∧ m2.seen_by = m.seen_by
      ∧ (m2.content = m.content ∨ m2.content = some (jsTrim c)) := by
  unfold saveEditMessage
  split
  · exact ⟨m, by rw [h], rfl, rfl, rfl, rfl, rfl, rfl, rfl, rfl, Or.inl rfl⟩
  · rw [List.getElem?_map, h, Option.map_some']
    refine ⟨_, rfl, ?_⟩
    split
    · exact ⟨rfl, rfl, rfl, rfl, rfl, rfl, rfl, rfl, Or.inr rfl⟩
    · exact ⟨rfl, rfl, rfl, rfl, rfl, rfl, rfl, rfl, Or.inl rfl⟩

/-- Witness for the amended C9 on a concrete row. -/
theorem edit_preserves_created_at_witness :
    ∃ m2, (saveEditMessage "m1" "new"
      [{ id := "m1", content := some "old", image_url := none,
         message_type := "text", created_at := 42, sender_id := "a",
         conversation_id := "c1", reactions := [], seen_by := [] }])[0]? =
        some m2 ∧ m2.created_at = 42 :=
  match edit_preserves_created_at "m1" "new" _ 0 _ rfl with
  | ⟨m2, hm2, hc, _⟩ => ⟨m2, hm2, hc⟩

lemma handleInsertEvent_nodup (m : Message) (acc : List Message)
    (h : (acc.map Message.id).Nodup) :
    ((handleInsertEvent m acc).map Message.id).Nodup := by
  unfold handleInsertEvent
  split
  · exact h
  · rename_i hany
    rw [List.map_append]
    rw [List.nodup_append]
    refine ⟨h, List.nodup_singleton _, ?_⟩
    intro a ha hb
    have hid : a = m.id := by simpa using hb
    obtain ⟨msg, hmsg, hmsgid⟩ := List.mem_map.1 ha
    exact hany (List.any_eq_true.2 ⟨msg, hmsg, by simp [hmsgid, hid]⟩)

end ChatMe

namespace ChatMe

/-- C10: the live-insert handler keeps message ids pairwise distinct.  For
every starting list with pairwise-distinct ids and every sequence of INSERT
events (including events for messages already loaded by the initial fetch),
the resulting list's ids are still pairwise distinct, and an insert event
whose id is already present leaves the list unchanged. -/
theorem insert_handler_ids_distinct (inits events : List Message)
    (h : (inits.map Message.id).Nodup) :
    ((events.foldl (fun acc m => handleInsertEvent m acc) inits).map
        Message.id).Nodup
    ∧ (∀ (acc : List Message) (m : Message),
        acc.any (fun msg => msg.id == m.id) = true →
        handleInsertEvent m acc = acc) := by
  constructor
  · induction events generalizing inits with
    | nil => exact h
    | cons e rest ih =>
        exact ih (handleInsertEvent e inits) (handleInsertEvent_nodup e inits h)
  · intro acc m hany
    unfold handleInsertEvent
    rw [if_pos hany]

/-- Witness for C10: replaying the same concrete message twice (an insert
event for an already-present id) still yields pairwise-distinct ids. -/
theorem insert_handler_ids_distinct_witness :
    (([{ id := "m1", content := some "hi", image_url := none,
          message_type := "text", created_at := 0, sender_id := "a",
          conversation_id := "c1", reactions := [], seen_by := [] },
        { id := "m1", content := some "hi", image_url := none,
          message_type := "text", created_at := 0, sender_id := "a",
          conversation_id := "c1", reactions := [], seen_by := [] }].foldl
        (fun acc m => handleInsertEvent m acc) ([] : List Message)).map
        Message.id).Nodup :=
  (insert_handler_ids_distinct [] _ List.nodup_nil).1

/-- The file selected for an image send (Chat.tsx 1196): name, MIME content
type, size in bytes. -/
structure FileInput where
  name : String
  type : String
  size : Nat
deriving DecidableEq

/-- The externally visible effects of one `uploadImage` call: the storage
objects uploaded and the message rows inserted.  The realtime INSERT
broadcast is the change feed of the inserted rows, so an empty
`insertedMessages` also means no broadcast reaches any subscriber. -/
structure UploadEffects where
  uploadedObjects : List String
  insertedMessages : List Message
deriving DecidableEq

/-- `uploadImage` (Chat.tsx 1195-1223): a file whose content type does not
start with `image/` or whose size exceeds 10 * 1024 * 1024 bytes is rejected
before any storage upload or row insert; otherwise one object named
`userId/timestamp.ext` is uploaded and one image message row is inserted
with its public URL.  `nowMs` models `Date.now()` and `msgId` the
database-generated row id. -/
def uploadImage (conv uid : String) (nowMs : Int) (msgId : String)
    (file : FileInput) : UploadEffects :=
  if !file.type.startsWith "image/" then ⟨[], []⟩
  else if file.size > 10 * 1024 * 1024 then ⟨[], []⟩
  else
    let fileExt := (file.name.splitOn ".").getLastD ""
    let fileName := uid ++ "/" ++ toString nowMs ++ "." ++ fileExt
    { uploadedObjects := [fileName]
      insertedMessages := [{
        id := msgId, content := none,
        image_url := some ("chat-images/" ++ fileName),
        message_type := "image", created_at := nowMs, sender_id := uid,
        conversation_id := conv, reactions := [], seen_by := [] }] }

/-- C6: an image send whose payload exceeds 10 MiB or whose content type is
not an image type is rejected with no effects — nothing is uploaded, no
message row is created, and hence no INSERT event is broadcast. -/
theorem uploadImage_rejects_oversize_and_nonimage (conv uid : String)
    (nowMs : Int) (msgId : String) (file : FileInput)
    (h : 10 * 1024 * 1024 < file.size ∨
      file.type.startsWith "image/" = false) :
    uploadImage conv uid nowMs msgId file =
      { uploadedObjects := [], insertedMessages := [] } := by
  unfold uploadImage
  rcases h with h | h
  · by_cases ht : file.type.startsWith "image/"
    · rw [ht]
      simp only [Bool.not_true, Bool.false_eq_true, if_false]
      rw [if_pos h]
    · rw [Bool.not_eq_true] at ht
      rw [ht]
      simp
  · rw [h]
    simp

/-- Witness for C6: an 11 MiB PNG is rejected with no effects. -/
theorem uploadImage_rejects_witness :
    uploadImage "c1" "u1" 0 "m9"
      { name := "big.png", type := "image/png", size := 11 * 1024 * 1024 } =
      { uploadedObjects := [], insertedMessages := [] } :=
  uploadImage_rejects_oversize_and_nonimage "c1" "u1" 0 "m9" _
    (Or.inl (by decide))

/-- A row of the `profiles` table (Chat.tsx 726-733); `last_seen` is a
millisecond timestamp, updated by `updateUserPresence` to the current time. -/
structure ProfileRow where
  id : String
  user_id : String
  username : String
  display_name : String
  avatar_url : Option String
  last_seen : Int
deriving DecidableEq

/-- The window used by `fetchOnlineUsers` (Chat.tsx 890):
`Date.now() - 5 * 60 * 1000`. -/
def fiveMinutesMs : Int := 5 * 60 * 1000

/-- `fetchOnlineUsers` (Chat.tsx 888-899): the online set is recomputed from
the profiles table at query time — the user ids whose `last_seen` is at
least `now - 5 minutes`.  No presence state is stored besides `last_seen`
and no expiry process exists: this function is the whole computation. -/
def fetchOnlineUsers (nowMs : Int) (profiles : List ProfileRow) :
    List String :=
  (profiles.filter (fun p => nowMs - fiveMinutesMs ≤ p.last_seen)).map
    (fun p => p.user_id)

/-- `isUserOnline` (Chat.tsx 1270): membership in the fetched online set. -/
def isUserOnline (uid : String) (onlineUsers : List String) : Bool :=
  onlineUsers.contains uid

/-- C7: presence is a pure read-time five-minute-window computation — a user
is reported online iff some profile row for that user has
`now - last_seen ≤ 5 minutes` (the computation is a function of the query
time and the profiles table alone; no separate presence state exists). -/
theorem presence_pure_five_minute_window (nowMs : Int)
    (profiles : List ProfileRow) (uid : String) :
    isUserOnline uid (fetchOnlineUsers nowMs profiles) = true ↔
      ∃ p ∈ profiles, p.user_id = uid ∧
        nowMs - p.last_seen ≤ 5 * 60 * 1000 := by
  unfold isUserOnline fetchOnlineUsers fiveMinutesMs
  rw [List.contains_iff_exists_mem_beq]
  constructor
  · rintro ⟨x, hx, hbeq⟩
    obtain ⟨p, hp, hpx⟩ := List.mem_map.1 hx
    have hfil := List.mem_filter.1 hp
    refine ⟨p, hfil.1, ?_, ?_⟩
    · rw [hpx]; exact (beq_iff_eq.1 hbeq).symm
    · have := of_decide_eq_true hfil.2
      omega
  · rintro ⟨p, hp, hpu, hpt⟩
    refine ⟨p.user_id, List.mem_map.2 ⟨p, List.mem_filter.2 ⟨hp, ?_⟩, rfl⟩, ?_⟩
    · exact decide_eq_true (by omega)
    · exact beq_iff_eq.2 hpu.symm

/-- A `conversations` row joined with its participants, as assembled by
`fetchConversations` (Chat.tsx 718-724, 901-927). -/
structure Conversation where
  id : String
  name : Option String
  is_group : Bool
  participants : List ProfileRow
deriving DecidableEq

/-- The `incoming_call` broadcast payload (Chat.tsx 736-741, built by
`startVideoCall` at 1290-1299, which always includes a call id). -/
structure IncomingCall where
  roomUrl : String
  caller : ProfileRow
  conversationId : String
  callId : String
deriving DecidableEq

/-- The component state the call handlers read and write. -/
structure CallState where
  incomingCall : Option IncomingCall
  showVideoCall : Bool
  videoCallUrl : String
  selectedConversation : Option String
deriving DecidableEq

/-- One `call_ended` broadcast send (Chat.tsx 1324-1334): the channel is the
target participant's `calls-userId` channel and the payload carries the
ending user's id and the conversation id. -/
structure CallEndedSend where
  targetUserId : String
  callerId : String
  conversationId : String
deriving DecidableEq

/-- `declineCall` (Chat.tsx 1313-1315): the local incoming-call state is
cleared and nothing else happens — in particular no channel send of any
kind is performed. -/
def declineCall (s : CallState) : CallState × List CallEndedSend :=
  ({ s with incomingCall := none }, [])

/-- `endCall` (Chat.tsx 1317-1339): with no selected conversation the call
returns immediately; otherwise one `call_ended` broadcast is sent to the
`calls-userId` channel of every participant of the selected conversation
other than the acting user, and the local call state is cleared. -/
def endCall (uid : String) (convs : List Conversation) (s : CallState) :
    CallState × List CallEndedSend :=
  match s.selectedConversation with
  | none => (s, [])
  | some convId =>
      let currentConv := convs.find? (fun cv => cv.id == convId)
      let otherParticipants :=
        (currentConv.map (fun cv =>
          cv.participants.filter (fun p => p.user_id != uid))).getD []
      ({ s with
          showVideoCall := false,
          videoCallUrl := "",
          incomingCall := none },
        otherParticipants.map (fun p =>
          { targetUserId := p.user_id, callerId := uid,
            conversationId := convId }))

/-- A missed-call toast (Chat.tsx 862-868), keyed by the call id of the
expired payload. -/
inductive CallNotice where
  | missedCall (callId : String)
deriving DecidableEq

/-- The events the call machinery of one client reacts to: receipt of an
`incoming_call` broadcast (Chat.tsx 855-874), the firing of the 30-second
timeout scheduled when that broadcast was handled (860-872), the local
accept (1304-1311) and decline (1313-1315), and receipt of a `call_ended`
broadcast (875-879).  Each handled invite schedules exactly one `timerFire`
for its payload, 30 seconds after receipt; the timeout is never cancelled —
instead its callback produces the missed-call toast only when the same call
id is still the pending incoming call. -/
inductive CallEvent where
  | incomingBroadcast (payload : IncomingCall)
  | timerFire (payload : IncomingCall)
  | accept
  | decline
  | callEndedBroadcast
deriving DecidableEq

/-- One step of the call machinery, returning the next state and the
missed-call toasts produced. -/
def stepCall (selfId : String) (s : CallState) :
    CallEvent → CallState × List CallNotice
  | .incomingBroadcast payload =>
      if payload.caller.user_id != selfId then
        ({ s with incomingCall := some payload }, [])
      else (s, [])
  | .timerFire payload =>
      match s.incomingCall with
      | some prev =>
          if prev.callId == payload.callId then
            ({ s with incomingCall := none },
              [CallNotice.missedCall payload.callId])
          else (s, [])
      | none => (s, [])
  | .accept =>
      match s.incomingCall with
      | some c =>
          ({ s with
              videoCallUrl := c.roomUrl,
              selectedConversation := some c.conversationId,
              showVideoCall := true,
              incomingCall := none }, [])
      | none => (s, [])
  | .decline => ({ s with incomingCall := none }, [])
  | .callEndedBroadcast =>
      ({ s with incomingCall := none, showVideoCall := false }, [])

/-- Runs a sequence of call events, accumulating the toasts produced. -/
def runCall (selfId : String) (s : CallState) :
    List CallEvent → CallState × List CallNotice
  | [] => (s, [])
  | e :: rest =>
      let r1 := stepCall selfId s e
      let r2 := runCall selfId r1.1 rest
      (r2.1, r1.2 ++ r2.2)

lemma runCall_cons (selfId : String) (s : CallState) (e : CallEvent)
    (rest : List CallEvent) :
    runCall selfId s (e :: rest) =
      ((runCall selfId (stepCall selfId s e).1 rest).1,
       (stepCall selfId s e).2 ++
         (runCall selfId (stepCall selfId s e).1 rest).2) := rfl

lemma runCall_append (selfId : String) (s : CallState)
    (l₁ l₂ : List CallEvent) :
    runCall selfId s (l₁ ++ l₂) =
      ((runCall selfId (runCall selfId s l₁).1 l₂).1,
       (runCall selfId s l₁).2 ++
         (runCall selfId (runCall selfId s l₁).1 l₂).2) := by
  induction l₁ generalizing s with
  | nil => rfl
  | cons e rest ih =>
      rw [List.cons_append, runCall_cons, runCall_cons, ih]
      simp [List.append_assoc]

/-- Timer firings for other call ids neither change the pending incoming
call nor produce a toast. -/
lemma runCall_fires_other (selfId : String) (c : IncomingCall)
    (s : CallState) (hs : s.incomingCall = some c) (mid : List CallEvent)
    (hmid : ∀ e ∈ mid, ∃ p, e = CallEvent.timerFire p ∧
      p.callId ≠ c.callId) :
    runCall selfId s mid = (s, []) := by
  induction mid with
  | nil => rfl
  | cons e rest ih =>
      obtain ⟨p, he, hne⟩ := hmid e (List.mem_cons_self e rest)
      subst he
      have hbeq : (c.callId == p.callId) = false :=
        beq_eq_false_iff_ne.2 fun h => hne h.symm
      have hstep : stepCall selfId s (CallEvent.timerFire p) = (s, []) := by
        simp [stepCall, hs, hbeq]
      have hrest := ih fun e he => hmid e (List.mem_cons_of_mem _ he)
      rw [runCall_cons, hstep, hrest]
      rfl

end ChatMe

namespace ChatMe

/-- C8: the 30-second invite timeout.  For an invite received from another
user, if only timer firings for other call ids happen before the invite's
own timer fires (no accept, no decline), that firing produces exactly the
one missed-call toast for the invite's call id; if the invite was accepted
or declined first, its timer firing produces no toast at all; and an accept
arriving once the invite is already resolved (the pending incoming call is
gone) is a pure no-op, not an error. -/
theorem call_timeout_missed_exactly_once (selfId : String)
    (c : IncomingCall) (s : CallState) (mid : List CallEvent)
    (hcaller : c.caller.user_id ≠ selfId)
    (hmid : ∀ e ∈ mid, ∃ p, e = CallEvent.timerFire p ∧
      p.callId ≠ c.callId) :
    ((runCall selfId s (CallEvent.incomingBroadcast c ::
        (mid ++ [CallEvent.timerFire c]))).2 =
      [CallNotice.missedCall c.callId])
    ∧ ((runCall selfId s (CallEvent.incomingBroadcast c ::
        (mid ++ [CallEvent.accept, CallEvent.timerFire c]))).2 = [])
    ∧ ((runCall selfId s (CallEvent.incomingBroadcast c ::
        (mid ++ [CallEvent.decline, CallEvent.timerFire c]))).2 = [])
    ∧ (∀ s2 : CallState, s2.incomingCall = none →
        stepCall selfId s2 CallEvent.accept = (s2, [])) := by
  have hb : (c.caller.user_id != selfId) = true := bne_iff_ne.2 hcaller
  have hstep0 : stepCall selfId s (CallEvent.incomingBroadcast c) =
      ({ s with incomingCall := some c }, []) := by
    simp [stepCall, hb]
  have hmidrun : runCall selfId { s with incomingCall := some c } mid =
      ({ s with incomingCall := some c }, []) :=
    runCall_fires_other selfId c _ rfl mid hmid
  have hnofire : ∀ s2 : CallState, s2.incomingCall = none →
      stepCall selfId s2 (CallEvent.timerFire c) = (s2, []) := by
    intro s2 hs2
    simp [stepCall, hs2]
  have hnoaccept : ∀ s2 : CallState, s2.incomingCall = none →
      stepCall selfId s2 CallEvent.accept = (s2, []) := by
    intro s2 hs2
    simp [stepCall, hs2]
  refine ⟨?_, ?_, ?_, hnoaccept⟩
  · rw [runCall_cons, hstep0]
    simp only [List.nil_append]
    rw [runCall_append, hmidrun]
    simp only [List.nil_append]
    rw [runCall_cons]
    have hfire : stepCall selfId { s with incomingCall := some c }
        (CallEvent.timerFire c) =
        ({ s with incomingCall := none },
          [CallNotice.missedCall c.callId]) := by
      simp [stepCall]
    rw [hfire]
    rfl
  · rw [runCall_cons, hstep0]
    simp only [List.nil_append]
    rw [runCall_append, hmidrun]
    simp only [List.nil_append]
    rw [runCall_cons]
    have haccept : stepCall selfId { s with incomingCall := some c }
        CallEvent.accept =
        ({ s with
            videoCallUrl := c.roomUrl,
            selectedConversation := some c.conversationId,
            showVideoCall := true,
            incomingCall := none }, []) := by
      simp [stepCall]
    rw [haccept]
    simp only [List.nil_append]
    rw [runCall_cons, hnofire _ rfl]
    rfl
  · rw [runCall_cons, hstep0]
    simp only [List.nil_append]
    rw [runCall_append, hmidrun]
    simp only [List.nil_append]
    rw [runCall_cons]
    have hdecl : stepCall selfId { s with incomingCall := some c }
        CallEvent.decline =
        ({ s with incomingCall := none }, []) := by
      simp [stepCall]
    rw [hdecl]
    simp only [List.nil_append]
    rw [runCall_cons, hnofire _ rfl]
    rfl

/-- Witness for C8 at a concrete invite with no interleaved events. -/
theorem call_timeout_missed_exactly_once_witness :
    (runCall "me"
      { incomingCall := none, showVideoCall := false, videoCallUrl := "",
        selectedConversation := none }
      (CallEvent.incomingBroadcast
        { roomUrl := "room", caller :=
            { id := "p1", user_id := "alice", username := "al",
              display_name := "Alice", avatar_url := none, last_seen := 0 },
          conversationId := "conv1", callId := "c1" } ::
        ([] ++ [CallEvent.timerFire
          { roomUrl := "room", caller :=
              { id := "p1", user_id := "alice", username := "al",
                display_name := "Alice", avatar_url := none,
                last_seen := 0 },
            conversationId := "conv1", callId := "c1" }]))).2 =
      [CallNotice.missedCall "c1"] :=
  (call_timeout_missed_exactly_once "me" _ _ [] (by decide)
    (fun e he => absurd he (List.not_mem_nil e))).1

/-- A concrete state with a pending incoming call from Alice, used to settle
the decline-broadcast claim. -/
def declineSampleState : CallState :=
  { incomingCall := some
      { roomUrl := "room",
        caller :=
          { id := "p1", user_id := "alice", username := "al",
            display_name := "Alice", avatar_url := none, last_seen := 0 },
        conversationId := "conv1", callId := "c1" },
    showVideoCall := false, videoCallUrl := "",
    selectedConversation := some "conv1" }

/-- C5 counterexample: declining an incoming call broadcasts nothing.  At a
concrete state with a pending incoming call from another participant
(Alice, the caller, is a member of the originating conversation),
`declineCall` performs zero channel sends — so no `CallEnded` event is
broadcast to any session of any other participant, and in particular the
caller never learns of the decline. -/
theorem decline_no_broadcast_counterexample :
    (declineCall declineSampleState).2 = []
    ∧ (declineCall declineSampleState).1.incomingCall = none :=
  ⟨rfl, rfl⟩

/-- C5 amended: declining an incoming call only clears the local
incoming-call state and broadcasts no event at all (nobody, the caller
included, is notified of a decline); ending a call broadcasts one
`call_ended` event to the calls channel of every participant of the
currently selected conversation other than the acting user, then clears the
local call state. -/
theorem decline_and_end_call_broadcasts (uid : String)
    (convs : List Conversation) (cv : Conversation) (s : CallState)
    (hsel : s.selectedConversation = some cv.id)
    (hfind : convs.find? (fun c => c.id == cv.id) = some cv) :
    ((declineCall s).2 = []
      ∧ (declineCall s).1 = { s with incomingCall := none })
    ∧ ((endCall uid convs s).2 =
        (cv.participants.filter (fun p => p.user_id != uid)).map
          (fun p => { targetUserId := p.user_id, callerId := uid,
                      conversationId := cv.id })
      ∧ (endCall uid convs s).1 =
        { s with
            showVideoCall := false,
            videoCallUrl := "",
            incomingCall := none }) := by
  have h2 : endCall uid convs s =
      ({ s with
          showVideoCall := false,
          videoCallUrl := "",
          incomingCall := none },
        (cv.participants.filter (fun p => p.user_id != uid)).map
          (fun p => { targetUserId := p.user_id, callerId := uid,
                      conversationId := cv.id })) := by
    simp [endCall, hsel, hfind]
  exact ⟨⟨rfl, rfl⟩, by rw [h2], by rw [h2]⟩

/-- A concrete two-member conversation used for the end-call witness. -/
def endCallSampleConv : Conversation :=
  { id := "conv1", name := none, is_group := false,
    participants :=
      [{ id := "p1", user_id := "alice", username := "al",
         display_name := "Alice", avatar_url := none, last_seen := 0 },
       { id := "p2", user_id := "bob", username := "bo",
         display_name := "Bob", avatar_url := none, last_seen := 0 }] }

/-- Witness for the amended C5: Bob ends a call in the two-member
conversation with Alice; the broadcast list is the one computed over the
other participants. -/
theorem decline_and_end_call_broadcasts_witness :
    (endCall "bob" [endCallSampleConv]
      { incomingCall := none, showVideoCall := true,
        videoCallUrl := "room", selectedConversation := some "conv1" }).2 =
      (endCallSampleConv.participants.filter
        (fun p => p.user_id != "bob")).map
        (fun p => { targetUserId := p.user_id, callerId := "bob",
                    conversationId := endCallSampleConv.id }) :=
  ((decline_and_end_call_broadcasts "bob" [endCallSampleConv]
    endCallSampleConv
    { incomingCall := none, showVideoCall := true,
      videoCallUrl := "room", selectedConversation := some "conv1" }
    rfl (by decide)).2).1

end ChatMe
